import Mathlib

/-
  Verification development for the phantom-metrics engine of the
  Dicom_Analysis repository (backend/head_neck.py, backend/torso.py,
  backend/nema_body.py).

  Modelling conventions:
  - Python floats are modelled by exact rationals (ℚ); where the source
    calls numpy sqrt or uses numpy pi the value is modelled in ℝ.
  - Python round(x, n) is modelled by round-half-to-even on rationals
    (pyRound below), matching the documented semantics of builtin round.
  - A Python expression that raises (ZeroDivisionError, ValueError) or
    produces a non-finite float is modelled by none / Except.error.
  - Text is modelled as lists of characters; the source only lowercases,
    strips and splits ASCII metadata strings, which the character-level
    functions below implement directly.
  - Library collaborators (pydicom decoding, skimage threshold_otsu and
    connected-component labelling) are inputs to the model, as the spec
    treats them as consumed collaborators; every line of repository code
    around them is translated.
-/

-- ===================== generic numeric helpers =====================

/-- Round-half-to-even of a rational to an integer, the tie rule of the
Python builtin round. -/
def rndHalfEven (q : ℚ) : ℤ :=
  if q - ⌊q⌋ < 1 / 2 then ⌊q⌋
  else if (1 : ℚ) / 2 < q - ⌊q⌋ then ⌊q⌋ + 1
  else if Even ⌊q⌋ then ⌊q⌋ else ⌊q⌋ + 1

/-- Python round(x, n): round to n decimal places, half to even. -/
def pyRound (n : ℕ) (q : ℚ) : ℚ := (rndHalfEven (q * 10 ^ n) : ℚ) / 10 ^ n

/-- Python int() applied to a rational: truncation toward zero. -/
def pyIntQ (q : ℚ) : ℤ := if q < 0 then -⌊-q⌋ else ⌊q⌋

theorem rndHalfEven_floor_or_succ (q : ℚ) :
    rndHalfEven q = ⌊q⌋ ∨ rndHalfEven q = ⌊q⌋ + 1 := by
  unfold rndHalfEven
  split
  · exact Or.inl rfl
  · split
    · exact Or.inr rfl
    · split
      · exact Or.inl rfl
      · exact Or.inr rfl

theorem rndHalfEven_intCast (n : ℤ) : rndHalfEven (n : ℚ) = n := by
  unfold rndHalfEven
  simp

theorem rndHalfEven_nonneg {q : ℚ} (h : 0 ≤ q) : 0 ≤ rndHalfEven q := by
  rcases rndHalfEven_floor_or_succ q with h1 | h1 <;> rw [h1] <;>
    have := Int.floor_nonneg.mpr h <;> omega

theorem rndHalfEven_le_int {q : ℚ} {n : ℤ} (h : q ≤ (n : ℚ)) :
    rndHalfEven q ≤ n := by
  rcases eq_or_lt_of_le h with he | hl
  · rw [he, rndHalfEven_intCast]
  · have hfl : ⌊q⌋ < n := Int.floor_lt.mpr hl
    rcases rndHalfEven_floor_or_succ q with h1 | h1 <;> rw [h1] <;> omega

theorem pyRound_nonneg {q : ℚ} (n : ℕ) (h : 0 ≤ q) : 0 ≤ pyRound n q := by
  unfold pyRound
  have h1 : (0 : ℤ) ≤ rndHalfEven (q * 10 ^ n) :=
    rndHalfEven_nonneg (by positivity)
  positivity

theorem pyRound_le_int {q : ℚ} {N : ℤ} (n : ℕ) (h : q ≤ (N : ℚ)) :
    pyRound n q ≤ (N : ℚ) := by
  unfold pyRound
  have hp : (0 : ℚ) < 10 ^ n := by positivity
  rw [div_le_iff₀ hp]
  have h1 : q * 10 ^ n ≤ ((N * 10 ^ n : ℤ) : ℚ) := by
    push_cast
    exact mul_le_mul_of_nonneg_right h (by positivity)
  have h2 : rndHalfEven (q * 10 ^ n) ≤ N * 10 ^ n := rndHalfEven_le_int h1
  calc (rndHalfEven (q * 10 ^ n) : ℚ) ≤ ((N * 10 ^ n : ℤ) : ℚ) := by
        exact_mod_cast h2
    _ = (N : ℚ) * 10 ^ n := by push_cast; ring

-- ===================== shared metric helpers =====================

/-- Pixels of an image selected by a 0/1 mask, in row-major order;
models image[mask == 1] from the numpy sources. -/
def maskedData (image : List (List ℚ)) (mask : List (List ℕ)) : List ℚ :=
  ((image.zip mask).map
    (fun rp => (rp.1.zip rp.2).filterMap
      (fun q => if q.2 = 1 then some q.1 else none))).flatten

/-- Maximum of a list of rationals, models np.max on a nonempty array. -/
def listMax : List ℚ → ℚ
  | [] => 0
  | x :: xs => xs.foldl max x

/-- Minimum of a list of rationals, models np.min on a nonempty array. -/
def listMin : List ℚ → ℚ
  | [] => 0
  | x :: xs => xs.foldl min x

/-- Arithmetic mean, models np.mean on a nonempty array. -/
def listMean (l : List ℚ) : ℚ := l.sum / l.length

-- ===================== head_neck.py metrics =====================

namespace HeadNeck

/-- Constant SNR_MULTIPLIER = 0.7 from backend/head_neck.py. -/
def SNR_MULTIPLIER : ℚ := 7 / 10

/-- Translation of compute_snr from backend/head_neck.py: zero noise
standard deviation returns 0.0, otherwise round to one decimal. -/
def compute_snr (signal_mean noise_std : ℚ) : ℚ :=
  if noise_std = 0 then 0
  else pyRound 1 (SNR_MULTIPLIER * signal_mean / noise_std)

/-- Translation of compute_uniformity from backend/head_neck.py. -/
def compute_uniformity (signal_max signal_min : ℚ) : ℚ :=
  if signal_max + signal_min = 0 then 0
  else pyRound 1 (100 * (1 - (signal_max - signal_min) / (signal_max + signal_min)))

/-- Translation of compute_metrics from backend/head_neck.py: an empty
selection yields the degenerate triple (0, 0, 0); otherwise
(max, min, mean) of the selected pixels. -/
def compute_metrics (image : List (List ℚ)) (mask : List (List ℕ)) : ℚ × ℚ × ℚ :=
  let data := maskedData image mask
  if data = [] then (0, 0, 0)
  else (listMax data, listMin data, listMean data)

end HeadNeck

-- ===================== torso.py metrics =====================

namespace Torso

/-- Translation of compute_snr from backend/torso.py. The source has no
guard for a zero noise standard deviation: with Python floats the
division raises ZeroDivisionError, with numpy floats it yields a
non-finite value; both are modelled by none. For a nonzero noise
standard deviation the fixed NEMA multiplier is 0.66 for individual
elements and 0.7 for combined views. -/
def compute_snr (signal_mean noise_std : ℚ) (is_individual : Bool) : Option ℚ :=
  if noise_std = 0 then none
  else some (pyRound 1 ((if is_individual then (66 : ℚ) / 100 else 7 / 10) *
    signal_mean / noise_std))

/-- Translation of compute_uniformity from backend/torso.py. -/
def compute_uniformity (signal_max signal_min : ℚ) : ℚ :=
  if signal_max + signal_min = 0 then 0
  else pyRound 1 (100 * (1 - (signal_max - signal_min) / (signal_max + signal_min)))

/-- Translation of compute_metrics from backend/torso.py. The source has
no emptiness guard: np.min of an empty selection raises ValueError,
modelled by none. Nonempty selections yield (max, min, mean). -/
def compute_metrics (image : List (List ℚ)) (mask : List (List ℕ)) :
    Option (ℚ × ℚ × ℚ) :=
  match maskedData image mask with
  | [] => none
  | x :: xs => some (listMax (x :: xs), listMin (x :: xs), listMean (x :: xs))

end Torso

-- ===================== nema_body.py metrics =====================

namespace NemaBody

/-- Translation of the SNR assignment in process_directory of
backend/nema_body.py: snr = 0.66 * (mean / std) if std != 0 else 0.0,
then round(snr, 2). -/
def pair_snr (mean_image stddev_noise : ℚ) : ℚ :=
  pyRound 2 (if stddev_noise ≠ 0 then (66 : ℚ) / 100 * (mean_image / stddev_noise) else 0)

/-- Translation of the PIU assignment in process_directory of
backend/nema_body.py: piu = 100 * (1 - (max - min) / (max + min)) if the
denominator is nonzero else 0.0, then round(piu, 2). -/
def pair_piu (max_image min_image : ℚ) : ℚ :=
  pyRound 2 (if max_image + min_image ≠ 0 then
    100 * (1 - (max_image - min_image) / (max_image + min_image)) else 0)

end NemaBody

-- ===================== spec-side metric definitions =====================

/-- Modelled from the spec: SNR = round(multiplier * signal_mean /
noise_std, 1) for noise_std nonzero, and SNR = 0 for noise_std zero. -/
def snr_spec (multiplier signal_mean noise_std : ℚ) : ℚ :=
  if noise_std = 0 then 0
  else pyRound 1 (multiplier * signal_mean / noise_std)

/-- Modelled from the spec: Uniformity = round(100 * (1 -
(max - min) / (max + min)), 1), and 0 when the denominator is zero. -/
def piu_spec (signal_max signal_min : ℚ) : ℚ :=
  if signal_max + signal_min = 0 then 0
  else pyRound 1 (100 * (1 - (signal_max - signal_min) / (signal_max + signal_min)))

theorem headneck_uniformity_eq_spec (mx mn : ℚ) :
    HeadNeck.compute_uniformity mx mn = piu_spec mx mn := rfl

theorem torso_uniformity_eq_spec (mx mn : ℚ) :
    Torso.compute_uniformity mx mn = piu_spec mx mn := rfl

theorem piu_spec_bounds {mx mn : ℚ} (h0 : 0 ≤ mn) (h1 : mn ≤ mx)
    (h2 : 0 < mx + mn) :
    0 ≤ piu_spec mx mn ∧ piu_spec mx mn ≤ 100 := by
  unfold piu_spec
  rw [if_neg (by linarith)]
  have hratio0 : 0 ≤ (mx - mn) / (mx + mn) := by
    apply div_nonneg <;> linarith
  have hratio1 : (mx - mn) / (mx + mn) ≤ 1 := by
    rw [div_le_one h2]; linarith
  constructor
  · exact pyRound_nonneg 1 (by nlinarith)
  · have := pyRound_le_int (q := 100 * (1 - (mx - mn) / (mx + mn))) (N := 100) 1
      (by push_cast; nlinarith)
    exact_mod_cast this

-- ===================== character-level text helpers =====================

/-- ASCII lowercasing of one character, models str.lower on the ASCII
metadata strings of the sources. -/
def lowChar (c : Char) : Char :=
  if 'A' ≤ c ∧ c ≤ 'Z' then Char.ofNat (c.toNat + 32) else c

/-- ASCII uppercasing of one character, models str.upper. -/
def upChar (c : Char) : Char :=
  if 'a' ≤ c ∧ c ≤ 'z' then Char.ofNat (c.toNat - 32) else c

/-- Lowercased character list of a string. -/
def lowStr (s : String) : List Char := s.data.map lowChar

/-- Whitespace test for str.strip. -/
def isSpaceChar (c : Char) : Bool :=
  c == ' ' || c == '\t' || c == '\n' || c == '\r'

/-- Models str.strip: drop whitespace from both ends. -/
def trimChars (cs : List Char) : List Char :=
  ((cs.dropWhile isSpaceChar).reverse.dropWhile isSpaceChar).reverse

/-- Models str.split on a semicolon. -/
def splitSemi (cs : List Char) : List (List Char) :=
  cs.foldr (fun c acc =>
    if c = ';' then [] :: acc
    else match acc with
      | [] => [[c]]
      | t :: rest => (c :: t) :: rest) [[]]

/-- Coil-label tokens of a coil string: split on semicolons, strip each
piece, keep the nonempty ones; models the comprehension
[c.strip() for c in coil_string.split(";") if c.strip()]. -/
def strTokens (s : String) : List (List Char) :=
  ((splitSemi s.data).map trimChars).filter (fun t => t ≠ [])

/-- Test that the second list starts with the first list. -/
def leadsWith : List Char → List Char → Bool
  | [], _ => true
  | _ :: _, [] => false
  | a :: as, b :: bs => a == b && leadsWith as bs

theorem leadsWith_iff (n h : List Char) :
    leadsWith n h = true ↔ ∃ post, h = n ++ post := by
  induction n generalizing h with
  | nil => simp [leadsWith]
  | cons a as ih =>
    cases h with
    | nil => simp [leadsWith]
    | cons b bs =>
      simp only [leadsWith, Bool.and_eq_true, beq_iff_eq, ih, List.cons_append,
        List.cons.injEq]
      constructor
      · rintro ⟨hab, post, hp⟩
        exact ⟨post, hab.symm, hp⟩
      · rintro ⟨post, hab, hp⟩
        exact ⟨hab.symm, post, hp⟩

/-- Boolean substring test: some drop of the haystack starts with the
needle; models the Python "needle in haystack" test. -/
def charsHas (hay needle : List Char) : Bool :=
  (List.range (hay.length + 1)).any (fun i => leadsWith needle (hay.drop i))

/-- Substring containment as a proposition, used on the spec side of the
classifier claims. -/
def ContainsSub (hay needle : List Char) : Prop :=
  ∃ pre post, hay = pre ++ needle ++ post

theorem charsHas_iff {hay needle : List Char} :
    charsHas hay needle = true ↔ ContainsSub hay needle := by
  unfold charsHas ContainsSub
  rw [List.any_eq_true]
  constructor
  · rintro ⟨i, hi, hp⟩
    rw [leadsWith_iff] at hp
    obtain ⟨post, hpost⟩ := hp
    exact ⟨hay.take i, post, by
      rw [List.append_assoc, ← hpost, List.take_append_drop]⟩
  · rintro ⟨pre, post, hsplit⟩
    refine ⟨pre.length, ?_, ?_⟩
    · rw [List.mem_range, hsplit]
      simp only [List.length_append]
      omega
    · rw [leadsWith_iff, hsplit, List.append_assoc, List.drop_left]
      exact ⟨post, rfl⟩

-- ===================== file metadata model =====================

/-- Decoded descriptive metadata of one DICOM file, the input to the
classifiers. The pydicom decode is a collaborator: path is the file
path, seriesDesc the SeriesDescription tag, coilString the private
(0x0051, 0x100F) coil-element tag (empty when absent), imageTypes the
ImageType multi-value, and maxVal the maximum pixel intensity (none
when the pixel data cannot be read). -/
structure FileMeta where
  path : String
  seriesDesc : String
  coilString : String
  imageTypes : List String
  maxVal : Option ℕ
deriving DecidableEq

/-- Ordered orientation candidates shared by both classifiers. -/
def ORIENTATIONS : List (List Char) := (["tra", "sag", "cor"].map String.data)

/-- First orientation substring of a lowercased series description,
models next((ori for ori in ["tra", "sag", "cor"] if ori in sdl), None). -/
def firstOrientation (sdl : List Char) : Option (List Char) :=
  ORIENTATIONS.find? (fun o => charsHas sdl o)

/-- Noise-name test shared by both classifiers: the lowercased series
description or the lowercased file path contains "noise". -/
def noiseNameB (f : FileMeta) : Bool :=
  charsHas (lowStr f.seriesDesc) "noise".data || charsHas (lowStr f.path) "noise".data

/-- File kind as in both sources: "noise" when the noise-name test
holds, otherwise "image". -/
def fileKind (f : FileMeta) : List Char :=
  if noiseNameB f then "noise".data else "image".data

/-- Normalization flag of the head-neck classifier: some entry of the
ImageType multi-value uppercases to NORM. -/
def isNormB (f : FileMeta) : Bool :=
  f.imageTypes.any (fun t => t.data.map upChar == "NORM".data)

-- ===================== head_neck.py classifier =====================

namespace HeadNeck

/-- Element labels of backend/head_neck.py (10 entries). -/
def ELEMENT_LABELS : List (List Char) :=
  (["VAS1", "VAS2", "VAS3", "VPS1", "VPS2", "VPS3",
    "VAP1", "VAP2", "VPP1", "VPP2"].map String.data)

/-- Classification bucket of classify_files in backend/head_neck.py. -/
inductive Bucket where
  | indiv (elem ftype : List Char) (isNorm : Bool)
  | comb (ori ftype : List Char) (isNorm : Bool)
deriving DecidableEq

/-- Kind field of a head-neck bucket. -/
def Bucket.kind : Bucket → List Char
  | .indiv _ k _ => k
  | .comb _ k _ => k

/-- Translation of the per-file body of classify_files in
backend/head_neck.py. Files whose pixel maximum is exactly zero are
skipped (the black-frame pre-filter); then a file with exactly one
recognized coil label is individual, else a file with an orientation
substring is combined, else the file is dropped. The result none covers
both the skip and the drop; no input errors the classification. -/
def classify_file (f : FileMeta) : Option Bucket :=
  if f.maxVal = some 0 then none
  else
    let sdl := lowStr f.seriesDesc
    let is_norm := isNormB f
    let coil_labels := strTokens f.coilString
    let orientation := firstOrientation sdl
    if coil_labels.length == 1 && ELEMENT_LABELS.contains (coil_labels.headD []) then
      some (.indiv (coil_labels.headD []) (fileKind f) is_norm)
    else
      match orientation with
      | some o => some (.comb o (fileKind f) is_norm)
      | none => none

end HeadNeck

-- ===================== torso.py classifier =====================

namespace Torso

/-- Element labels of backend/torso.py (12 entries). -/
def ELEMENT_LABELS : List (List Char) :=
  (["VAS1", "VAS2", "VAS3", "VPS1", "VPS2", "VPS3",
    "VAP1", "VAP2", "VAP3", "VPP1", "VPP2", "VPP3"].map String.data)

/-- Classification bucket of classify_files in backend/torso.py. -/
inductive Bucket where
  | indiv (elem ftype : List Char)
  | comb (ori ftype : List Char)
deriving DecidableEq

/-- Kind field of a torso bucket. -/
def Bucket.kind : Bucket → List Char
  | .indiv _ k => k
  | .comb _ k => k

/-- Translation of the per-file body of classify_files in
backend/torso.py: individual when some coil label is recognized and
there is exactly one label, else combined when an orientation substring
occurs, else dropped. -/
def classify_file (f : FileMeta) : Option Bucket :=
  let series_desc := lowStr f.seriesDesc
  let orientation := firstOrientation series_desc
  let coil_labels := strTokens f.coilString
  if coil_labels.any (fun el => ELEMENT_LABELS.contains el) && coil_labels.length == 1 then
    some (.indiv (coil_labels.headD []) (fileKind f))
  else
    match orientation with
    | some o => some (.comb o (fileKind f))
    | none => none

end Torso

-- ===================== spec-side classifier conditions =====================

/-- Modelled from the spec: the semicolon-split coil-label field yields
exactly one trimmed non-empty token and that token belongs to the
element-label enumeration. -/
def ClaimIndiv (labels : List (List Char)) (f : FileMeta) : Prop :=
  ∃ t, strTokens f.coilString = [t] ∧ t ∈ labels

/-- Modelled from the spec: the lowercased series description contains
one of the orientation substrings. -/
def HasOri (f : FileMeta) : Prop :=
  ∃ o ∈ ORIENTATIONS, ContainsSub (lowStr f.seriesDesc) o

/-- Modelled from the spec: the series description or the file path
case-insensitively contains the substring "noise". -/
def NoiseName (f : FileMeta) : Prop :=
  ContainsSub (lowStr f.seriesDesc) "noise".data ∨
    ContainsSub (lowStr f.path) "noise".data

theorem noiseNameB_iff (f : FileMeta) : noiseNameB f = true ↔ NoiseName f := by
  unfold noiseNameB NoiseName
  rw [Bool.or_eq_true, charsHas_iff, charsHas_iff]

theorem firstOrientation_isSome_iff (f : FileMeta) :
    (firstOrientation (lowStr f.seriesDesc)).isSome ↔ HasOri f := by
  unfold firstOrientation HasOri
  rw [List.find?_isSome]
  constructor
  · rintro ⟨o, ho, hc⟩
    exact ⟨o, ho, charsHas_iff.mp hc⟩
  · rintro ⟨o, ho, hc⟩
    exact ⟨o, ho, charsHas_iff.mpr hc⟩

theorem torso_indiv_cond_iff (f : FileMeta) :
    ((strTokens f.coilString).any (fun el => Torso.ELEMENT_LABELS.contains el) &&
      (strTokens f.coilString).length == 1) = true ↔
    ClaimIndiv Torso.ELEMENT_LABELS f := by
  unfold ClaimIndiv
  cases h : strTokens f.coilString with
  | nil => simp [h]
  | cons a tl =>
    cases tl with
    | nil => simp [h]
    | cons b tl2 => simp [h]

theorem headneck_indiv_cond_iff (f : FileMeta) :
    ((strTokens f.coilString).length == 1 &&
      HeadNeck.ELEMENT_LABELS.contains ((strTokens f.coilString).headD [])) = true ↔
    ClaimIndiv HeadNeck.ELEMENT_LABELS f := by
  unfold ClaimIndiv
  cases h : strTokens f.coilString with
  | nil => simp [h]
  | cons a tl =>
    cases tl with
    | nil => simp [h]
    | cons b tl2 => simp [h]

-- ===================== head_neck.py pairing =====================

namespace HeadNeck

/-- Combined-view key type of classify_files: (orientation, kind,
normalized). -/
def CKey : Type := List Char × List Char × Bool

instance : DecidableEq CKey := by
  unfold CKey
  infer_instance

/-- Combined-view pair selection of process_hn_folder in
backend/head_neck.py: the signal key is exactly (orientation, image,
normalized) and the noise key exactly (orientation, noise,
unnormalized); if either is missing the orientation is skipped. -/
def combined_pair (d : CKey → Option String) (ori : List Char) :
    Option (String × String) :=
  match d (ori, "image".data, true), d (ori, "noise".data, false) with
  | some s, some n => some (s, n)
  | _, _ => none

/-- Signal-image choice for one individual element in process_hn_folder:
the normalized image if present, else the unnormalized image. -/
def indiv_image_choice (d : CKey → Option String) (el : List Char) :
    Option String :=
  match d (el, "image".data, true) with
  | some p => some p
  | none => d (el, "image".data, false)

/-- Noise-image choice for one individual element in process_hn_folder:
the unnormalized noise image if present, else the normalized one. -/
def indiv_noise_choice (d : CKey → Option String) (el : List Char) :
    Option String :=
  match d (el, "noise".data, false) with
  | some p => some p
  | none => d (el, "noise".data, true)

/-- Individual-element pair selection of process_hn_folder: both choices
must produce a file, otherwise the element is skipped. -/
def individual_pair (d : CKey → Option String) (el : List Char) :
    Option (String × String) :=
  match indiv_image_choice d el, indiv_noise_choice d el with
  | some i, some n => some (i, n)
  | _, _ => none

/-- Last-wins dictionary of combined classifications, as built by the
classification loop (a later file with the same key overwrites an
earlier one). -/
def combined_dict (files : List FileMeta) : CKey → Option String :=
  files.foldl (fun d f =>
    match classify_file f with
    | some (.comb o k n) => fun key => if key = (o, k, n) then some f.path else d key
    | _ => d) (fun _ => none)

/-- Last-wins dictionary of individual classifications. -/
def individual_dict (files : List FileMeta) : CKey → Option String :=
  files.foldl (fun d f =>
    match classify_file f with
    | some (.indiv e k n) => fun key => if key = (e, k, n) then some f.path else d key
    | _ => d) (fun _ => none)

/-- Processing order of the combined loop in process_hn_folder. -/
def PROCESS_ORIENTATIONS : List (List Char) := (["sag", "tra", "cor"].map String.data)

/-- Control-flow model of process_hn_folder in backend/head_neck.py over
the list of DICOM files found by the folder walk (a missing folder
walks to no files). If no DICOM file was found the source logs and
returns the pair of empty lists; otherwise rows are produced in fixed
enumeration order for every orientation and element whose pair
selection succeeds. The per-pair metric computation is a downstream
step on the selected paths and is not needed for the folder-level
control flow, so each row here is (label, signal path, noise path).
The Except codomain records that the source can propagate exceptions
from decoding, but the empty-folder path returns normally. -/
def process_hn_folder (files : List FileMeta) :
    Except String (List (List Char × String × String) ×
      List (List Char × String × String)) :=
  if files.isEmpty then .ok ([], [])
  else
    let dc := combined_dict files
    let di := individual_dict files
    .ok (PROCESS_ORIENTATIONS.filterMap
          (fun ori => (combined_pair dc ori).map (fun p => (ori, p.1, p.2))),
         ELEMENT_LABELS.filterMap
          (fun el => (individual_pair di el).map (fun p => (el, p.1, p.2))))

end HeadNeck

-- ===================== torso.py folder processing =====================

namespace Torso

/-- Association-list update with Python dict semantics: overwrite in
place when the key exists, else append. -/
def updAssoc (l : List ((List Char × List Char) × String))
    (k : List Char × List Char) (v : String) :
    List ((List Char × List Char) × String) :=
  if l.any (fun p => p.1 = k) then
    l.map (fun p => if p.1 = k then (k, v) else p)
  else l ++ [(k, v)]

/-- Association-list lookup. -/
def lookupAssoc (l : List ((List Char × List Char) × String))
    (k : List Char × List Char) : Option String :=
  (l.find? (fun p => p.1 = k)).map (fun p => p.2)

/-- Classification dictionaries of classify_files in backend/torso.py,
as insertion-ordered association lists (combined, individual). -/
def classify_lists (files : List FileMeta) :
    List ((List Char × List Char) × String) ×
      List ((List Char × List Char) × String) :=
  files.foldl (fun acc f =>
    match classify_file f with
    | some (.comb o k) => (updAssoc acc.1 (o, k) f.path, acc.2)
    | some (.indiv e k) => (acc.1, updAssoc acc.2 (e, k) f.path)
    | none => acc) ([], [])

/-- Control-flow model of process_torso_folder in backend/torso.py. The
input none models a missing folder, on which os.listdir raises
FileNotFoundError; some files models the readable DICOM files found.
The processing loops iterate over the classification keys, pair every
image key with the noise key of the same orientation or element, and
skip entries without a noise partner; rows are (label, signal path,
noise path) as in the head-neck model. -/
def process_torso_folder (listing : Option (List FileMeta)) :
    Except String (List (List Char × String × String) ×
      List (List Char × String × String)) :=
  match listing with
  | none => .error "FileNotFoundError"
  | some files =>
    let cls := classify_lists files
    .ok (cls.1.filterMap (fun p =>
          if p.1.2 = "image".data then
            (lookupAssoc cls.1 (p.1.1, "noise".data)).map
              (fun np => (p.1.1, p.2, np))
          else none),
         cls.2.filterMap (fun p =>
          if p.1.2 = "image".data then
            (lookupAssoc cls.2 (p.1.1, "noise".data)).map
              (fun np => (p.1.1, p.2, np))
          else none))

end Torso

-- ===================== image model and ROI builder =====================

/-- Two-dimensional intensity image: height, width, and a pixel lookup
(row index, then column index). -/
structure Img where
  h : ℕ
  w : ℕ
  pix : ℕ → ℕ → ℚ

/-- Row-major list of all pixel positions of an image. -/
def posList (img : Img) : List (ℕ × ℕ) :=
  (List.range img.h).flatMap (fun i => (List.range img.w).map (fun j => (i, j)))

/-- Whether some pixel is strictly positive, models np.any(image > 0). -/
def anyPosPixel (img : Img) : Bool :=
  (posList img).any (fun p => decide (0 < img.pix p.1 p.2))

/-- First row-major position of the maximum pixel value among strictly
positive pixels, models np.unravel_index(np.argmax(np.where(image > 0,
image, -inf))) when some pixel is positive. -/
def argmaxPos (img : Img) : ℕ × ℕ :=
  match (posList img).filter (fun p => decide (0 < img.pix p.1 p.2)) with
  | [] => (img.h / 2, img.w / 2)
  | c :: cs => cs.foldl (fun b p =>
      if img.pix b.1 b.2 < img.pix p.1 p.2 then p else b) c

/-- Result of create_roi_mask from backend/head_neck.py: the mask
predicate over (column, row) coordinates, the final center and the
radius in pixels, mirroring the returned tuple
(mask, cx, cy, r_pixels). -/
structure RoiResult where
  mask : ℤ → ℤ → Prop
  cx : ℤ
  cy : ℤ
  r : ℝ

/-- Radius in pixels of create_roi_mask: for signal mode
max(1, radius_mm / avg_spacing), otherwise max(1,
sqrt(area_mm2 / pi) / avg_spacing). -/
noncomputable def roiRadius (mode : String) (radius_mm area_mm2 avg : ℚ) : ℝ :=
  if mode = "signal" then max 1 ((radius_mm / avg : ℚ) : ℝ)
  else max 1 (Real.sqrt ((area_mm2 : ℝ) / Real.pi) / (avg : ℝ))

namespace HeadNeck

/-- Translation of create_roi_mask from backend/head_neck.py. The center
starts at the geometric image center; in signal mode with
find_max_intensity and at least one positive pixel it moves to the
first maximal positive pixel. The margin is int(r_pixels) + 5 (the
radius is at least 1, so int() truncation is the floor), and each
center coordinate is clamped to max(margin, min(dim - margin, c)). The
mask holds at the integer points within r_pixels of the final center. -/
noncomputable def create_roi_mask (img : Img) (sx sy : ℚ) (mode : String)
    (radius_mm area_mm2 : ℚ) (find_max_intensity : Bool) : RoiResult :=
  let height := img.h
  let width := img.w
  let avg : ℚ := (sx + sy) / 2
  let r_pixels : ℝ := roiRadius mode radius_mm area_mm2 avg
  let c0 : ℕ × ℕ :=
    if mode = "signal" && find_max_intensity && anyPosPixel img then argmaxPos img
    else (height / 2, width / 2)
  let margin : ℤ := ⌊r_pixels⌋ + 5
  let cx : ℤ := max margin (min ((width : ℤ) - margin) (c0.2 : ℤ))
  let cy : ℤ := max margin (min ((height : ℤ) - margin) (c0.1 : ℤ))
  { mask := fun x y =>
      ((x - cx : ℤ) : ℝ) ^ 2 + ((y - cy : ℤ) : ℝ) ^ 2 ≤ r_pixels ^ 2,
    cx := cx, cy := cy, r := r_pixels }

end HeadNeck

/-- A ROI result selects no pixel of a w-by-h image grid. -/
def SelectsNoPixel (roi : RoiResult) (w h : ℕ) : Prop :=
  ∀ x y : ℤ, 0 ≤ x → x < (w : ℤ) → 0 ≤ y → y < (h : ℤ) → ¬ roi.mask x y

-- ===================== phantom locator =====================

/-- One connected component reported by skimage regionprops: pixel-count
area and centroid (row, column). -/
structure Region where
  area : ℕ
  cy : ℚ
  cx : ℚ

/-- Python max(regions, key=area): the first region of maximal area, or
none for an empty list. -/
def pyMaxArea : List Region → Option Region
  | [] => none
  | x :: xs => some (xs.foldl (fun b r => if b.area < r.area then r else b) x)

/-- Surviving regions of the phantom locator: the connected components
of the thresholded image, with components of fewer than 500 pixels
removed (the min_size=500 argument of remove_small_objects). The
components function is the skimage labelling collaborator applied to
the binarized image. -/
def survivingRegions (img : Img) (thresh : ℚ)
    (components : (ℕ → ℕ → Bool) → List Region) : List Region :=
  (components (fun i j => decide (thresh < img.pix i j))).filter
    (fun r => 500 ≤ r.area)

/-- Translation of detect_circular_object from backend/head_neck.py and
backend/nema_body.py (identical code). The Otsu threshold value and
the connected-component labelling are skimage collaborators supplied
as inputs; the repository code binarizes at the threshold, removes
components below 500 pixels, and either falls back to the image center
with radius min(shape) // 4 when no region survives, or returns the
int-truncated centroid of the largest region and
int(sqrt(area / pi)). -/
noncomputable def detect_circular_object (img : Img) (thresh : ℚ)
    (components : (ℕ → ℕ → Bool) → List Region) : ℤ × ℤ × ℤ :=
  match pyMaxArea (survivingRegions img thresh components) with
  | none => (((img.h / 2 : ℕ) : ℤ), ((img.w / 2 : ℕ) : ℤ), ((min img.h img.w / 4 : ℕ) : ℤ))
  | some r => (pyIntQ r.cy, pyIntQ r.cx, ⌊Real.sqrt ((r.area : ℝ) / Real.pi)⌋)

theorem pyMaxArea_eq_none_iff (l : List Region) : pyMaxArea l = none ↔ l = [] := by
  cases l <;> simp [pyMaxArea]

theorem pyMaxArea_mem_and_max (l : List Region) (r : Region)
    (h : pyMaxArea l = some r) : r ∈ l ∧ ∀ s ∈ l, s.area ≤ r.area := by
  match l with
  | [] => simp [pyMaxArea] at h
  | x :: xs =>
    simp only [pyMaxArea, Option.some.injEq] at h
    subst h
    induction xs generalizing x with
    | nil => simp
    | cons y ys ih =>
      simp only [List.foldl_cons]
      rcases ih (if x.area < y.area then y else x) with ⟨hmem, hmax⟩
      constructor
      · rcases List.mem_cons.mp hmem with hc | hc
        · rw [hc]
          split <;> simp
        · exact List.mem_cons_of_mem _ (List.mem_cons_of_mem _ hc)
      · intro s hs
        have hbase := hmax (if x.area < y.area then y else x) (List.mem_cons_self _ _)
        rcases List.mem_cons.mp hs with hc | hc
        · rw [hc]
          have h1 : x.area ≤ (if x.area < y.area then y else x).area := by
            split <;> omega
          omega
        · rcases List.mem_cons.mp hc with hc2 | hc2
          · rw [hc2]
            have h1 : y.area ≤ (if x.area < y.area then y else x).area := by
              split <;> omega
            omega
          · exact hmax s (List.mem_cons_of_mem _ hc2)

-- ===================== claim C1 =====================

/-- Claim C1 (counterexample): the claim states that the SNR computation
returns 0 for a zero noise standard deviation in every variant, but
compute_snr of backend/torso.py has no zero guard and errors (or yields
a non-finite float) there, modelled by none. -/
theorem c1_snr_counterexample : Torso.compute_snr 5 0 false = none := by
  simp [Torso.compute_snr]

/-- Claim C1 (amended): head_neck compute_snr returns
round(0.7 * mean / std, 1) for a nonzero std and 0 for a zero std;
torso compute_snr returns round(multiplier * mean / std, 1) only for a
nonzero std and is an error (non-finite) at zero; nema_body rounds
0.66 * mean / std to two decimals for a nonzero std and returns 0 at
zero. -/
theorem c1_snr_amended (m s : ℚ) (b : Bool) :
    HeadNeck.compute_snr m s = snr_spec (7 / 10) m s ∧
    (s ≠ 0 → Torso.compute_snr m s b =
      some (pyRound 1 ((if b then (66 : ℚ) / 100 else 7 / 10) * m / s))) ∧
    Torso.compute_snr m 0 b = none ∧
    (s ≠ 0 → NemaBody.pair_snr m s = pyRound 2 ((66 : ℚ) / 100 * (m / s))) ∧
    NemaBody.pair_snr m 0 = 0 := by
  refine ⟨?_, ?_, ?_, ?_, ?_⟩
  · simp [HeadNeck.compute_snr, snr_spec, HeadNeck.SNR_MULTIPLIER]
  · intro h
    simp [Torso.compute_snr, h]
  · simp [Torso.compute_snr]
  · intro h
    simp [NemaBody.pair_snr, h]
  · norm_num [NemaBody.pair_snr, pyRound, rndHalfEven]

/-- Claim C1 (witness): the amended theorem applied at mean 700 and
standard deviation 7. -/
theorem c1_snr_amended_witness :
    HeadNeck.compute_snr 700 7 = 70 ∧
    Torso.compute_snr 700 7 false = some 70 ∧
    NemaBody.pair_snr 700 7 = 66 := by
  have h := c1_snr_amended 700 7 false
  refine ⟨?_, ?_, ?_⟩
  · rw [h.1]
    norm_num [snr_spec, pyRound, rndHalfEven]
  · rw [h.2.1 (by norm_num)]
    norm_num [pyRound, rndHalfEven]
  · rw [h.2.2.2.1 (by norm_num)]
    norm_num [pyRound, rndHalfEven]

-- ===================== claim C2 =====================

/-- Claim C2 (counterexample): the claim states a multiplier of 0.7 for
combined orientation views in all body regions, but the orientation
rows of nema_body use 0.66: at mean 700 and std 7 the nema_body SNR is
66, not the 70 a 0.7 multiplier would give. -/
theorem c2_multiplier_counterexample :
    NemaBody.pair_snr 700 7 = 66 ∧ pyRound 2 ((7 : ℚ) / 10 * (700 / 7)) = 70 ∧
      (66 : ℚ) ≠ 70 := by
  refine ⟨?_, ?_, by norm_num⟩
  · norm_num [NemaBody.pair_snr, pyRound, rndHalfEven]
  · norm_num [pyRound, rndHalfEven]

/-- Claim C2 (amended): the multiplier is a fixed per-protocol constant:
0.7 for both combined views and individual elements in head_neck, 0.7
for combined views and 0.66 for individual elements in torso, and 0.66
for the orientation rows of nema_body. -/
theorem c2_multiplier_amended (m s : ℚ) (h : s ≠ 0) :
    HeadNeck.compute_snr m s = pyRound 1 ((7 : ℚ) / 10 * m / s) ∧
    Torso.compute_snr m s false = some (pyRound 1 ((7 : ℚ) / 10 * m / s)) ∧
    Torso.compute_snr m s true = some (pyRound 1 ((66 : ℚ) / 100 * m / s)) ∧
    NemaBody.pair_snr m s = pyRound 2 ((66 : ℚ) / 100 * (m / s)) := by
  refine ⟨?_, ?_, ?_, ?_⟩
  · simp [HeadNeck.compute_snr, HeadNeck.SNR_MULTIPLIER, h]
  · simp [Torso.compute_snr, h]
  · simp [Torso.compute_snr, h]
  · simp [NemaBody.pair_snr, h]

/-- Claim C2 (witness): the amended theorem applied at mean 700 and
standard deviation 7. -/
theorem c2_multiplier_amended_witness :
    HeadNeck.compute_snr 700 7 = 70 ∧
    Torso.compute_snr 700 7 true = some 66 ∧
    NemaBody.pair_snr 700 7 = 66 := by
  have h := c2_multiplier_amended 700 7 (by norm_num)
  refine ⟨?_, ?_, ?_⟩
  · rw [h.1]
    norm_num [pyRound, rndHalfEven]
  · rw [h.2.2.1]
    norm_num [pyRound, rndHalfEven]
  · rw [h.2.2.2]
    norm_num [pyRound, rndHalfEven]

-- ===================== claim C3 =====================

/-- Claim C3 (counterexample): the claim states a one-decimal rounding
for the uniformity in every variant, but nema_body rounds to two
decimals: at max 5062 and min 4938 nema_body reports 98.76 while the
one-decimal formula of the claim gives 98.8. -/
theorem c3_uniformity_counterexample :
    NemaBody.pair_piu 5062 4938 = 9876 / 100 ∧
    piu_spec 5062 4938 = 988 / 10 ∧
    (9876 : ℚ) / 100 ≠ 988 / 10 := by
  refine ⟨?_, ?_, by norm_num⟩
  · norm_num [NemaBody.pair_piu, pyRound, rndHalfEven]
  · norm_num [piu_spec, pyRound, rndHalfEven]

/-- Claim C3 (amended): head_neck and torso compute the uniformity as
round(100 * (1 - (max - min) / (max + min)), 1) with 0 at a zero
denominator; nema_body computes the same formula rounded to two
decimals, also with 0 at a zero denominator. -/
theorem c3_uniformity_amended (mx mn : ℚ) :
    HeadNeck.compute_uniformity mx mn = piu_spec mx mn ∧
    Torso.compute_uniformity mx mn = piu_spec mx mn ∧
    (mx + mn ≠ 0 → NemaBody.pair_piu mx mn =
      pyRound 2 (100 * (1 - (mx - mn) / (mx + mn)))) ∧
    (mx + mn = 0 → NemaBody.pair_piu mx mn = 0) := by
  refine ⟨headneck_uniformity_eq_spec mx mn, torso_uniformity_eq_spec mx mn, ?_, ?_⟩
  · intro h
    simp [NemaBody.pair_piu, h]
  · intro h
    norm_num [NemaBody.pair_piu, h, pyRound, rndHalfEven]

/-- Claim C3 (witness): the amended theorem applied at max 5062 and
min 4938. -/
theorem c3_uniformity_amended_witness :
    HeadNeck.compute_uniformity 5062 4938 = 988 / 10 ∧
    NemaBody.pair_piu 5062 4938 = 9876 / 100 := by
  have h := c3_uniformity_amended 5062 4938
  refine ⟨?_, ?_⟩
  · rw [h.1]
    norm_num [piu_spec, pyRound, rndHalfEven]
  · rw [h.2.2.1 (by norm_num)]
    norm_num [pyRound, rndHalfEven]

-- ===================== claim C10 =====================

/-- Claim C10 (confirmed): for 0 le min le max with a positive
denominator, the uniformity of head_neck and torso lies in [0, 100]
and equals exactly 100 when max equals min. -/
theorem c10_uniformity_bounds (mx mn : ℚ) (h0 : 0 ≤ mn) (h1 : mn ≤ mx)
    (h2 : 0 < mx + mn) :
    0 ≤ HeadNeck.compute_uniformity mx mn ∧
    HeadNeck.compute_uniformity mx mn ≤ 100 ∧
    0 ≤ Torso.compute_uniformity mx mn ∧
    Torso.compute_uniformity mx mn ≤ 100 ∧
    (mx = mn → HeadNeck.compute_uniformity mx mn = 100 ∧
      Torso.compute_uniformity mx mn = 100) := by
  have hb := piu_spec_bounds h0 h1 h2
  have h100 : mx = mn → piu_spec mx mn = 100 := by
    intro he
    unfold piu_spec
    rw [if_neg (by linarith), he, sub_self, zero_div]
    norm_num [pyRound, rndHalfEven]
  rw [headneck_uniformity_eq_spec, torso_uniformity_eq_spec]
  exact ⟨hb.1, hb.2, hb.1, hb.2, fun he => ⟨h100 he, h100 he⟩⟩

/-- Claim C10 (witness): the bounds theorem applied at max 3 and
min 3, a perfectly uniform region. -/
theorem c10_uniformity_bounds_witness :
    0 ≤ HeadNeck.compute_uniformity 3 3 ∧
    HeadNeck.compute_uniformity 3 3 = 100 ∧
    0 ≤ Torso.compute_uniformity 3 3 ∧
    Torso.compute_uniformity 3 3 = 100 := by
  have h := c10_uniformity_bounds 3 3 (by norm_num) (by norm_num) (by norm_num)
  exact ⟨h.1, (h.2.2.2.2 rfl).1, h.2.2.1, (h.2.2.2.2 rfl).2⟩

-- ===================== claim C4 =====================

/-- Claim C4 (counterexample): the claim states that a mask selecting
zero pixels yields zero metric values in every variant, but
compute_metrics of backend/torso.py has no emptiness guard and raises
ValueError from np.min on the empty selection, modelled by none. -/
theorem c4_empty_mask_counterexample :
    Torso.compute_metrics [[5, 7]] [[0, 0]] = none := by
  rfl

/-- Claim C4 (amended): when the mask selects zero pixels, head_neck
compute_metrics returns the degenerate triple (0, 0, 0) without
raising, while torso compute_metrics raises (modelled by none). -/
theorem c4_empty_mask_amended (image : List (List ℚ)) (mask : List (List ℕ))
    (h : maskedData image mask = []) :
    HeadNeck.compute_metrics image mask = (0, 0, 0) ∧
    Torso.compute_metrics image mask = none := by
  constructor
  · simp [HeadNeck.compute_metrics, h]
  · simp [Torso.compute_metrics, h]

/-- Claim C4 (witness): the amended theorem applied to a one-row image
whose mask selects nothing. -/
theorem c4_empty_mask_amended_witness :
    HeadNeck.compute_metrics [[5, 7]] [[0, 0]] = (0, 0, 0) ∧
    Torso.compute_metrics [[5, 7]] [[0, 0]] = none :=
  c4_empty_mask_amended [[5, 7]] [[0, 0]] rfl

-- ===================== claim C5 =====================

/-- Concrete classifier output used to refute the combined-view fallback:
an unnormalized sag signal image and an unnormalized sag noise image
are present, a normalized sag signal image is not. -/
def c5dict : HeadNeck.CKey → Option String := fun k =>
  if k = ("sag".data, "image".data, false) then some "sag_unnorm.dcm"
  else if k = ("sag".data, "noise".data, false) then some "sag_noise.dcm"
  else none

/-- Claim C5 (counterexample): the claim states that whenever the
preferred variant is absent but the other variant is present the
aggregation falls back instead of skipping, but the combined-view loop
of process_hn_folder requires exactly the normalized signal key: with
an unnormalized signal and an unnormalized noise present and no
normalized signal, the sag orientation is skipped. -/
theorem c5_pairing_counterexample :
    HeadNeck.combined_pair c5dict "sag".data = none ∧
    c5dict ("sag".data, "image".data, false) = some "sag_unnorm.dcm" ∧
    c5dict ("sag".data, "noise".data, false) = some "sag_noise.dcm" := by
  refine ⟨?_, by decide, by decide⟩
  decide

/-- Claim C5 (amended): for individual elements the aggregation prefers
the normalized signal image and the unnormalized noise image and falls
back to the other variant when the preferred one is absent, pairing the
element exactly when both choices produce a file; for combined views
there is no fallback: a row is produced exactly when the normalized
signal image and the unnormalized noise image are both present. -/
theorem c5_pairing_amended (d : HeadNeck.CKey → Option String)
    (el ori : List Char) :
    (∀ p, d (el, "image".data, true) = some p →
      HeadNeck.indiv_image_choice d el = some p) ∧
    (d (el, "image".data, true) = none →
      HeadNeck.indiv_image_choice d el = d (el, "image".data, false)) ∧
    (∀ p, d (el, "noise".data, false) = some p →
      HeadNeck.indiv_noise_choice d el = some p) ∧
    (d (el, "noise".data, false) = none →
      HeadNeck.indiv_noise_choice d el = d (el, "noise".data, true)) ∧
    (∀ i n, HeadNeck.individual_pair d el = some (i, n) ↔
      (HeadNeck.indiv_image_choice d el = some i ∧
        HeadNeck.indiv_noise_choice d el = some n)) ∧
    (∀ s n, HeadNeck.combined_pair d ori = some (s, n) ↔
      (d (ori, "image".data, true) = some s ∧
        d (ori, "noise".data, false) = some n)) := by
  refine ⟨?_, ?_, ?_, ?_, ?_, ?_⟩
  · intro p hp
    rw [HeadNeck.indiv_image_choice, hp]
  · intro hn
    rw [HeadNeck.indiv_image_choice, hn]
  · intro p hp
    rw [HeadNeck.indiv_noise_choice, hp]
  · intro hn
    rw [HeadNeck.indiv_noise_choice, hn]
  · intro i n
    rw [HeadNeck.individual_pair]
    cases hi : HeadNeck.indiv_image_choice d el <;>
      cases hn : HeadNeck.indiv_noise_choice d el <;>
        simp
  · intro s n
    rw [HeadNeck.combined_pair]
    cases hi : d (ori, "image".data, true) <;>
      cases hn : d (ori, "noise".data, false) <;>
        simp

/-- Concrete classifier output exercising the individual-element
fallback: for element VAS1 only an unnormalized image and a normalized
noise file exist. -/
def c5dict2 : HeadNeck.CKey → Option String := fun k =>
  if k = ("VAS1".data, "image".data, false) then some "vas1_img.dcm"
  else if k = ("VAS1".data, "noise".data, true) then some "vas1_noise.dcm"
  else none

/-- Claim C5 (witness): the amended theorem applied to the concrete
classifier outputs: the individual-element selection falls back to the
unnormalized image and to the normalized noise file and pairs VAS1,
while the combined-view selection produces a row only for exactly
matching keys. -/
theorem c5_pairing_amended_witness :
    HeadNeck.indiv_image_choice c5dict2 "VAS1".data = some "vas1_img.dcm" ∧
    HeadNeck.indiv_noise_choice c5dict2 "VAS1".data = some "vas1_noise.dcm" ∧
    HeadNeck.individual_pair c5dict2 "VAS1".data =
      some ("vas1_img.dcm", "vas1_noise.dcm") := by
  have h := c5_pairing_amended c5dict2 "VAS1".data "sag".data
  have himg : HeadNeck.indiv_image_choice c5dict2 "VAS1".data =
      some "vas1_img.dcm" := by
    rw [h.2.1 (by decide)]
    decide
  have hnoi : HeadNeck.indiv_noise_choice c5dict2 "VAS1".data =
      some "vas1_noise.dcm" := by
    rw [h.2.2.2.1 (by decide)]
    decide
  exact ⟨himg, hnoi,
    ((h.2.2.2.2.1 "vas1_img.dcm" "vas1_noise.dcm").mpr ⟨himg, hnoi⟩)⟩

-- ===================== claim C9 =====================

/-- Claim C9 (counterexample): the claim states that the core pipeline
propagates a hard error on a missing or empty input folder, but
process_hn_folder returns the ordinary empty result pair when the
folder walk finds no DICOM file (which is also what happens for a
missing folder, since os.walk yields nothing there). -/
theorem c9_empty_folder_counterexample :
    HeadNeck.process_hn_folder [] = Except.ok ([], []) := by
  rfl

/-- Claim C9 (amended): on a folder with no readable DICOM files the
head_neck core returns the empty result pair without error; the torso
core raises FileNotFoundError only when the folder itself is missing
(os.listdir fails) and also returns the empty result pair on an empty
folder. The hard failure for an empty upload folder lives in the
external HTTP layer, not in the core. -/
theorem c9_empty_folder_amended :
    HeadNeck.process_hn_folder [] = Except.ok ([], []) ∧
    Torso.process_torso_folder none = Except.error "FileNotFoundError" ∧
    Torso.process_torso_folder (some []) = Except.ok ([], []) := by
  exact ⟨rfl, rfl, rfl⟩

-- ===================== claim C7 =====================

theorem fileKind_eq_noise_iff (f : FileMeta) :
    fileKind f = "noise".data ↔ NoiseName f := by
  rw [← noiseNameB_iff]
  unfold fileKind
  cases h : noiseNameB f
  · simp only [Bool.false_eq_true, if_false, iff_false]
    decide
  · simp

theorem torso_classify_unfolded (f : FileMeta) : Torso.classify_file f =
    if ((strTokens f.coilString).any (fun el => Torso.ELEMENT_LABELS.contains el) &&
        (strTokens f.coilString).length == 1) then
      some (.indiv ((strTokens f.coilString).headD []) (fileKind f))
    else
      match firstOrientation (lowStr f.seriesDesc) with
      | some o => some (.comb o (fileKind f))
      | none => none := rfl

theorem headneck_classify_unfolded (f : FileMeta) (h : ¬ f.maxVal = some 0) :
    HeadNeck.classify_file f =
    if ((strTokens f.coilString).length == 1 &&
        HeadNeck.ELEMENT_LABELS.contains ((strTokens f.coilString).headD [])) then
      some (.indiv ((strTokens f.coilString).headD []) (fileKind f) (isNormB f))
    else
      match firstOrientation (lowStr f.seriesDesc) with
      | some o => some (.comb o (fileKind f) (isNormB f))
      | none => none := by
  unfold HeadNeck.classify_file
  rw [if_neg h]

theorem not_hasOri_of_none (f : FileMeta)
    (h : firstOrientation (lowStr f.seriesDesc) = none) : ¬ HasOri f := by
  rw [← firstOrientation_isSome_iff, h]
  simp

theorem hasOri_of_some (f : FileMeta) (o : List Char)
    (h : firstOrientation (lowStr f.seriesDesc) = some o) : HasOri f := by
  rw [← firstOrientation_isSome_iff, h]
  simp

/-- Concrete black-frame input for claim C7: the pixel maximum is zero,
the coil-label field is the single recognized token VAS1. -/
def c7file : FileMeta :=
  { path := "/d/blank.dcm", seriesDesc := "t1 sag", coilString := "VAS1",
    imageTypes := [], maxVal := some 0 }

/-- Claim C7 (counterexample): the claim states that a file is
classified individual exactly when its coil-label field is one
recognized token, but the head_neck classifier first discards files
whose pixel maximum is zero: c7file satisfies the token condition yet
is dropped. -/
theorem c7_classifier_counterexample :
    HeadNeck.classify_file c7file = none ∧
    strTokens c7file.coilString = ["VAS1".data] ∧
    "VAS1".data ∈ HeadNeck.ELEMENT_LABELS := by
  refine ⟨by decide, by decide, by decide⟩

/-- Claim C7 (amended): the torso classifier satisfies the claim in
full: a file is individual exactly when the semicolon-split coil-label
field is exactly one trimmed recognized token, combined exactly when it
is not individual and the lowercased series description contains an
orientation substring, dropped (not errored) exactly when neither
holds, and its kind is noise exactly when the series description or
file path case-insensitively contains "noise". The head_neck
classifier satisfies the same four properties for every file that
survives its black-frame pre-filter, and drops every file whose pixel
maximum is exactly zero. -/
theorem c7_classifier_amended (f : FileMeta) :
    ((∃ e k, Torso.classify_file f = some (.indiv e k)) ↔
      ClaimIndiv Torso.ELEMENT_LABELS f) ∧
    ((∃ o k, Torso.classify_file f = some (.comb o k)) ↔
      (¬ ClaimIndiv Torso.ELEMENT_LABELS f ∧ HasOri f)) ∧
    (Torso.classify_file f = none ↔
      (¬ ClaimIndiv Torso.ELEMENT_LABELS f ∧ ¬ HasOri f)) ∧
    (∀ b, Torso.classify_file f = some b →
      (Torso.Bucket.kind b = "noise".data ↔ NoiseName f)) ∧
    (f.maxVal ≠ some 0 →
      ((∃ e k n, HeadNeck.classify_file f = some (.indiv e k n)) ↔
        ClaimIndiv HeadNeck.ELEMENT_LABELS f) ∧
      ((∃ o k n, HeadNeck.classify_file f = some (.comb o k n)) ↔
        (¬ ClaimIndiv HeadNeck.ELEMENT_LABELS f ∧ HasOri f)) ∧
      (HeadNeck.classify_file f = none ↔
        (¬ ClaimIndiv HeadNeck.ELEMENT_LABELS f ∧ ¬ HasOri f)) ∧
      (∀ b, HeadNeck.classify_file f = some b →
        (HeadNeck.Bucket.kind b = "noise".data ↔ NoiseName f))) ∧
    (f.maxVal = some 0 → HeadNeck.classify_file f = none) := by
  have hkind := fileKind_eq_noise_iff f
  refine ⟨?_, ?_, ?_, ?_, ?_, ?_⟩
  · rw [torso_classify_unfolded]
    by_cases hic : ((strTokens f.coilString).any
        (fun el => Torso.ELEMENT_LABELS.contains el) &&
        (strTokens f.coilString).length == 1) = true
    · rw [if_pos hic]
      exact iff_of_true ⟨_, _, rfl⟩ ((torso_indiv_cond_iff f).mp hic)
    · rw [if_neg hic]
      have hrhs := (torso_indiv_cond_iff f).not.mp hic
      cases ho : firstOrientation (lowStr f.seriesDesc) <;>
        simp [hrhs]
  · rw [torso_classify_unfolded]
    by_cases hic : ((strTokens f.coilString).any
        (fun el => Torso.ELEMENT_LABELS.contains el) &&
        (strTokens f.coilString).length == 1) = true
    · rw [if_pos hic]
      have := (torso_indiv_cond_iff f).mp hic
      simp [this]
    · rw [if_neg hic]
      have hrhs := (torso_indiv_cond_iff f).not.mp hic
      cases ho : firstOrientation (lowStr f.seriesDesc) with
      | none => simp [hrhs, not_hasOri_of_none f ho]
      | some o => simp [hrhs, hasOri_of_some f o ho]
  · rw [torso_classify_unfolded]
    by_cases hic : ((strTokens f.coilString).any
        (fun el => Torso.ELEMENT_LABELS.contains el) &&
        (strTokens f.coilString).length == 1) = true
    · rw [if_pos hic]
      have := (torso_indiv_cond_iff f).mp hic
      simp [this]
    · rw [if_neg hic]
      have hrhs := (torso_indiv_cond_iff f).not.mp hic
      cases ho : firstOrientation (lowStr f.seriesDesc) with
      | none => simp [hrhs, not_hasOri_of_none f ho]
      | some o => simp [hrhs, hasOri_of_some f o ho]
  · intro b hb
    rw [torso_classify_unfolded] at hb
    by_cases hic : ((strTokens f.coilString).any
        (fun el => Torso.ELEMENT_LABELS.contains el) &&
        (strTokens f.coilString).length == 1) = true
    · rw [if_pos hic] at hb
      cases hb
      simpa [Torso.Bucket.kind] using hkind
    · rw [if_neg hic] at hb
      cases ho : firstOrientation (lowStr f.seriesDesc) with
      | none => rw [ho] at hb; cases hb
      | some o =>
        rw [ho] at hb
        cases hb
        simpa [Torso.Bucket.kind] using hkind
  · intro hmv
    refine ⟨?_, ?_, ?_, ?_⟩
    · rw [headneck_classify_unfolded f hmv]
      by_cases hic : ((strTokens f.coilString).length == 1 &&
          HeadNeck.ELEMENT_LABELS.contains ((strTokens f.coilString).headD [])) = true
      · rw [if_pos hic]
        exact iff_of_true ⟨_, _, _, rfl⟩ ((headneck_indiv_cond_iff f).mp hic)
      · rw [if_neg hic]
        have hrhs := (headneck_indiv_cond_iff f).not.mp hic
        cases ho : firstOrientation (lowStr f.seriesDesc) <;>
          simp [hrhs]
    · rw [headneck_classify_unfolded f hmv]
      by_cases hic : ((strTokens f.coilString).length == 1 &&
          HeadNeck.ELEMENT_LABELS.contains ((strTokens f.coilString).headD [])) = true
      · rw [if_pos hic]
        have := (headneck_indiv_cond_iff f).mp hic
        simp [this]
      · rw [if_neg hic]
        have hrhs := (headneck_indiv_cond_iff f).not.mp hic
        cases ho : firstOrientation (lowStr f.seriesDesc) with
        | none => simp [hrhs, not_hasOri_of_none f ho]
        | some o => simp [hrhs, hasOri_of_some f o ho]
    · rw [headneck_classify_unfolded f hmv]
      by_cases hic : ((strTokens f.coilString).length == 1 &&
          HeadNeck.ELEMENT_LABELS.contains ((strTokens f.coilString).headD [])) = true
      · rw [if_pos hic]
        have := (headneck_indiv_cond_iff f).mp hic
        simp [this]
      · rw [if_neg hic]
        have hrhs := (headneck_indiv_cond_iff f).not.mp hic
        cases ho : firstOrientation (lowStr f.seriesDesc) with
        | none => simp [hrhs, not_hasOri_of_none f ho]
        | some o => simp [hrhs, hasOri_of_some f o ho]
    · intro b hb
      rw [headneck_classify_unfolded f hmv] at hb
      by_cases hic : ((strTokens f.coilString).length == 1 &&
          HeadNeck.ELEMENT_LABELS.contains ((strTokens f.coilString).headD [])) = true
      · rw [if_pos hic] at hb
        cases hb
        simpa [HeadNeck.Bucket.kind] using hkind
      · rw [if_neg hic] at hb
        cases ho : firstOrientation (lowStr f.seriesDesc) with
        | none => rw [ho] at hb; cases hb
        | some o =>
          rw [ho] at hb
          cases hb
          simpa [HeadNeck.Bucket.kind] using hkind
  · intro hmv
    unfold HeadNeck.classify_file
    rw [if_pos hmv]

/-- Concrete readable file for the C7 witness: an individual VAS1 noise
file by series description. -/
def c7file2 : FileMeta :=
  { path := "/d/a.dcm", seriesDesc := "t1 SAG Noise", coilString := " VAS1 ",
    imageTypes := ["ORIGINAL"], maxVal := some 9 }

/-- Claim C7 (witness): the amended theorem applied to a readable file
whose coil-label field is the single token VAS1 and whose series
description contains "noise": both classifiers classify it individual,
and its kind is noise. -/
theorem c7_classifier_amended_witness :
    (∃ e k, Torso.classify_file c7file2 = some (.indiv e k)) ∧
    (∃ e k n, HeadNeck.classify_file c7file2 = some (.indiv e k n)) ∧
    (∀ b, Torso.classify_file c7file2 = some b →
      Torso.Bucket.kind b = "noise".data) := by
  have h := c7_classifier_amended c7file2
  have hindiv : ClaimIndiv Torso.ELEMENT_LABELS c7file2 :=
    ⟨"VAS1".data, by decide, by decide⟩
  have hindiv2 : ClaimIndiv HeadNeck.ELEMENT_LABELS c7file2 :=
    ⟨"VAS1".data, by decide, by decide⟩
  have hnn : NoiseName c7file2 := by
    rw [← noiseNameB_iff]
    decide
  refine ⟨h.1.mpr hindiv, ((h.2.2.2.2.1 (by decide)).1).mpr hindiv2, ?_⟩
  intro b hb
  exact (h.2.2.2.1 b hb).mpr hnn

-- ===================== claim C6 =====================

theorem roiRadius_ge_one (mode : String) (rmm amm avg : ℚ) :
    1 ≤ roiRadius mode rmm amm avg := by
  unfold roiRadius
  split
  · exact le_max_left _ _
  · exact le_max_left _ _

theorem roiRadius_signal_3_1 (amm : ℚ) :
    roiRadius "signal" 3 amm ((1 + 1) / 2) = 3 := by
  unfold roiRadius
  rw [if_pos rfl]
  have h1 : (((3 : ℚ) / ((1 + 1) / 2) : ℚ) : ℝ) = 3 := by norm_num
  rw [h1]
  exact max_eq_right (by norm_num)

theorem create_roi_mask_r (img : Img) (sx sy : ℚ) (mode : String)
    (rmm amm : ℚ) (fmi : Bool) :
    (HeadNeck.create_roi_mask img sx sy mode rmm amm fmi).r =
      roiRadius mode rmm amm ((sx + sy) / 2) := rfl

/-- Round-half-to-even of a real number to an integer, the Python round
builtin applied to a numpy float. -/
noncomputable def rndHalfEvenR (x : ℝ) : ℤ :=
  if x - ⌊x⌋ < 1 / 2 then ⌊x⌋
  else if (1 : ℝ) / 2 < x - ⌊x⌋ then ⌊x⌋ + 1
  else if Even ⌊x⌋ then ⌊x⌋ else ⌊x⌋ + 1

/-- Translation of create_roi_mask from backend/torso.py. The radius is
radius_mm / avg_spacing in signal mode and sqrt(area_mm2 / pi) /
avg_spacing otherwise, with no floor of any kind (the noise-mode
recomputation at line 319 yields the same value). The center defaults
to the unclamped geometric image center; only when find_max_intensity
holds in signal mode is it replaced by the result of the multi-strategy
candidate search of lines 58-311, which the spec directs to treat as an
open question and which is therefore a collaborator input (searched,
fed by image, is_individual and element). The returned mask is the set
of integer points within the radius of that center. -/
noncomputable def Torso.create_roi_mask (img : Img) (sx sy : ℚ) (mode : String)
    (radius_mm area_mm2 : ℚ) (find_max_intensity : Bool)
    (is_individual : Bool) (element : Option (List Char))
    (searched : ℕ × ℕ) : RoiResult :=
  let height := img.h
  let width := img.w
  let avg : ℚ := (sx + sy) / 2
  let r_pixels : ℝ := if mode = "signal" then ((radius_mm / avg : ℚ) : ℝ)
    else Real.sqrt ((area_mm2 : ℝ) / Real.pi) / (avg : ℝ)
  let c0 : ℕ × ℕ := if find_max_intensity && decide (mode = "signal") then searched
    else (height / 2, width / 2)
  let cx : ℤ := (c0.2 : ℤ)
  let cy : ℤ := (c0.1 : ℤ)
  { mask := fun x y =>
      ((x - cx : ℤ) : ℝ) ^ 2 + ((y - cy : ℤ) : ℝ) ^ 2 ≤ r_pixels ^ 2,
    cx := cx, cy := cy, r := r_pixels }

theorem torso_create_roi_mask_r (img : Img) (sx sy : ℚ) (mode : String)
    (rmm amm : ℚ) (fmi ind : Bool) (el : Option (List Char)) (searched : ℕ × ℕ) :
    (Torso.create_roi_mask img sx sy mode rmm amm fmi ind el searched).r =
      if mode = "signal" then ((rmm / ((sx + sy) / 2) : ℚ) : ℝ)
      else Real.sqrt ((amm : ℝ) / Real.pi) / (((sx + sy) / 2 : ℚ) : ℝ) := rfl

theorem torso_create_roi_mask_center (img : Img) (sx sy : ℚ) (mode : String)
    (rmm amm : ℚ) (fmi ind : Bool) (el : Option (List Char)) (searched : ℕ × ℕ)
    (h : ¬ (fmi = true ∧ mode = "signal")) :
    (Torso.create_roi_mask img sx sy mode rmm amm fmi ind el searched).cx =
      ((img.w / 2 : ℕ) : ℤ) ∧
    (Torso.create_roi_mask img sx sy mode rmm amm fmi ind el searched).cy =
      ((img.h / 2 : ℕ) : ℤ) := by
  have hb : (fmi && decide (mode = "signal")) = false := by
    cases hf : fmi
    · rfl
    · have hm : ¬ mode = "signal" := fun hme => h ⟨hf, hme⟩
      simp [hm]
  constructor
  · simp only [Torso.create_roi_mask]
    rw [hb]
    simp
  · simp only [Torso.create_roi_mask]
    rw [hb]
    simp

/-- Pre-clip radius of create_circular_roi_nema_style in
backend/head_neck.py: max(1, round(sqrt(area / pi) / avg_spacing)). -/
noncomputable def nema_radius_px0 (desired_area_mm2 sx sy : ℚ) : ℤ :=
  max 1 (rndHalfEvenR (Real.sqrt ((desired_area_mm2 : ℝ) / Real.pi) /
    (((sx + sy) / 2 : ℚ) : ℝ)))

/-- Translation of create_circular_roi_nema_style from
backend/head_neck.py: the pre-clip radius is max(1, round(radius_mm /
avg_spacing)); the center comes from detect_circular_object; the row is
clamped only from above to height - radius - 1 (using the pre-clip
radius) after a 3-pixel downward nudge, the column is not clamped at
all; the radius is then clipped to max(1, obj_r - 2); the mask is the
set of integer points within the final radius of that center. -/
noncomputable def HeadNeck.create_circular_roi_nema_style (img : Img) (thresh : ℚ)
    (components : (ℕ → ℕ → Bool) → List Region) (sx sy : ℚ)
    (desired_area_mm2 : ℚ) : RoiResult :=
  let radius_px0 : ℤ := nema_radius_px0 desired_area_mm2 sx sy
  let d := detect_circular_object img thresh components
  let cy : ℤ := min (d.1 + 3) ((img.h : ℤ) - radius_px0 - 1)
  let cx : ℤ := d.2.1
  let radius_px : ℤ := min radius_px0 (max 1 (d.2.2 - 2))
  { mask := fun x y =>
      ((x - cx : ℤ) : ℝ) ^ 2 + ((y - cy : ℤ) : ℝ) ^ 2 ≤ ((radius_px : ℤ) : ℝ) ^ 2,
    cx := cx, cy := cy, r := ((radius_px : ℤ) : ℝ) }

theorem nema_style_r (img : Img) (thresh : ℚ)
    (components : (ℕ → ℕ → Bool) → List Region) (sx sy amm : ℚ) :
    (HeadNeck.create_circular_roi_nema_style img thresh components sx sy amm).r =
      ((min (nema_radius_px0 amm sx sy)
        (max 1 ((detect_circular_object img thresh components).2.2 - 2)) : ℤ) : ℝ) := rfl

theorem nema_style_cx (img : Img) (thresh : ℚ)
    (components : (ℕ → ℕ → Bool) → List Region) (sx sy amm : ℚ) :
    (HeadNeck.create_circular_roi_nema_style img thresh components sx sy amm).cx =
      (detect_circular_object img thresh components).2.1 := rfl

theorem nema_style_cy (img : Img) (thresh : ℚ)
    (components : (ℕ → ℕ → Bool) → List Region) (sx sy amm : ℚ) :
    (HeadNeck.create_circular_roi_nema_style img thresh components sx sy amm).cy =
      min ((detect_circular_object img thresh components).1 + 3)
        ((img.h : ℤ) - nema_radius_px0 amm sx sy - 1) := rfl

/-- Five-by-five all-zero image for the ROI counterexample. -/
def c6img : Img := { h := 5, w := 5, pix := fun _ _ => 0 }

/-- ROI of create_roi_mask on the 5-by-5 image in signal mode with the
default 3 mm radius and unit spacing. -/
noncomputable def c6roi : RoiResult :=
  HeadNeck.create_roi_mask c6img 1 1 "signal" 3 34000 false

theorem c6roi_r : c6roi.r = 3 := by
  rw [c6roi, create_roi_mask_r, roiRadius_signal_3_1]

theorem c6roi_cx : c6roi.cx = 8 := by
  simp only [c6roi, c6img, HeadNeck.create_roi_mask, roiRadius_signal_3_1]
  norm_num [max_def, min_def]

theorem c6roi_cy : c6roi.cy = 8 := by
  simp only [c6roi, c6img, HeadNeck.create_roi_mask, roiRadius_signal_3_1]
  norm_num [max_def, min_def]

theorem c6roi_mask_iff (x y : ℤ) :
    c6roi.mask x y ↔ ((x : ℝ) - 8) ^ 2 + ((y : ℝ) - 8) ^ 2 ≤ 9 := by
  simp only [c6roi, c6img, HeadNeck.create_roi_mask, roiRadius_signal_3_1]
  norm_num [max_def, min_def]

/-- Four-by-four all-zero image for the torso ROI counterexample. -/
def c6imgT : Img := { h := 4, w := 4, pix := fun _ _ => 0 }

/-- ROI of the torso builder in signal mode with 30 mm radius and
120 mm pixel spacing: the radius is 30 / 120 = 1/4 pixel. -/
noncomputable def c6roiTorso : RoiResult :=
  Torso.create_roi_mask c6imgT 120 120 "signal" 30 34000 false false none (0, 0)

theorem c6roiTorso_r : c6roiTorso.r = 1 / 4 := by
  rw [c6roiTorso, torso_create_roi_mask_r, if_pos rfl]
  norm_num

theorem c6roiTorso_center : c6roiTorso.cx = 2 ∧ c6roiTorso.cy = 2 := by
  have h := torso_create_roi_mask_center c6imgT 120 120 "signal" 30 34000 false
    false none (0, 0) (by simp)
  rw [c6roiTorso]
  exact ⟨h.1.trans rfl, h.2.trans rfl⟩

/-- Six-by-six all-zero image for the nema-style ROI counterexample. -/
def c6imgN : Img := { h := 6, w := 6, pix := fun _ _ => 0 }

/-- Single detected component whose centroid column 40 lies far outside
the 6-pixel-wide image. -/
def c6compsN : List Region := [{ area := 600, cy := 0, cx := 40 }]

/-- ROI of create_circular_roi_nema_style on the 6-by-6 image with unit
spacing and a 314 mm2 target area. -/
noncomputable def c6roiNema : RoiResult :=
  HeadNeck.create_circular_roi_nema_style c6imgN 0 (fun _ => c6compsN) 1 1 314

theorem c6detectN_cx :
    (detect_circular_object c6imgN 0 (fun _ => c6compsN)).2.1 = 40 := by
  have h1 : (detect_circular_object c6imgN 0 (fun _ => c6compsN)).2.1 =
      pyIntQ 40 := rfl
  rw [h1]
  unfold pyIntQ
  rw [if_neg (by norm_num)]
  norm_num

theorem c6detectN_cy :
    (detect_circular_object c6imgN 0 (fun _ => c6compsN)).1 = 0 := by
  have h1 : (detect_circular_object c6imgN 0 (fun _ => c6compsN)).1 =
      pyIntQ 0 := rfl
  rw [h1]
  unfold pyIntQ
  rw [if_neg (by norm_num)]
  norm_num

theorem nema_radius_px0_314 : nema_radius_px0 314 1 1 = 10 := by
  unfold nema_radius_px0
  have havg : ((((1 : ℚ) + 1) / 2 : ℚ) : ℝ) = 1 := by norm_num
  have harea : (((314 : ℚ)) : ℝ) = (314 : ℝ) := by norm_num
  rw [havg, div_one, harea]
  have hpi1 : Real.pi < 3.15 := Real.pi_lt_d2
  have hpi2 : (3.141592 : ℝ) < Real.pi := Real.pi_gt_d6
  have hpos : (0 : ℝ) < Real.pi := Real.pi_pos
  have hlt : Real.sqrt ((314 : ℝ) / Real.pi) < 10 := by
    rw [Real.sqrt_lt' (by norm_num)]
    rw [div_lt_iff₀ hpos]
    nlinarith
  have hgt : (19 / 2 : ℝ) < Real.sqrt ((314 : ℝ) / Real.pi) := by
    rw [show (19 / 2 : ℝ) = 9.5 by norm_num]
    rw [Real.lt_sqrt (by norm_num)]
    rw [lt_div_iff₀ hpos]
    nlinarith
  have hfloor : ⌊Real.sqrt ((314 : ℝ) / Real.pi)⌋ = 9 := by
    rw [Int.floor_eq_iff]
    refine ⟨?_, ?_⟩
    · push_cast
      linarith
    · push_cast
      linarith
  unfold rndHalfEvenR
  rw [hfloor]
  rw [if_neg (by push_cast; linarith), if_pos (by push_cast; linarith)]
  norm_num [max_def]

theorem c6roiNema_cx : c6roiNema.cx = 40 := by
  rw [c6roiNema, nema_style_cx, c6detectN_cx]

theorem c6roiNema_cy : c6roiNema.cy = -5 := by
  rw [c6roiNema, nema_style_cy, c6detectN_cy, nema_radius_px0_314]
  rw [show (c6imgN.h : ℤ) = 6 from rfl]
  norm_num [min_def]

theorem c6roiNema_r_bounds : 1 ≤ c6roiNema.r ∧ c6roiNema.r ≤ 10 := by
  rw [c6roiNema, nema_style_r, nema_radius_px0_314]
  constructor
  · exact_mod_cast le_min (by norm_num) (le_max_left _ _)
  · exact_mod_cast min_le_left _ _

/-- Claim C6 (counterexample): the claim fails on each of the three
cited ROI builders. On a 5-by-5 image the head_neck create_roi_mask
clamp places the center at (8, 8), outside the image, and the mask
selects no pixel. The torso create_roi_mask applies no radius floor at
all (the radius is 1/4 pixel at 120 mm spacing, below the claimed
minimum of 1) and does not clamp the default center (2 + (1/4 + 5)
exceeds the width 4). The nema-style builder leaves the column
unclamped at 40 on a 6-pixel-wide image, clamps the row to -5, and its
mask selects no pixel. -/
theorem c6_roi_builder_counterexample :
    (c6roi.r = 3 ∧ c6roi.cx = 8 ∧ c6roi.cy = 8 ∧
      ¬ (c6roi.cx + (⌊c6roi.r⌋ + 5) ≤ (5 : ℤ)) ∧ SelectsNoPixel c6roi 5 5) ∧
    (c6roiTorso.r = 1 / 4 ∧ ¬ (1 ≤ c6roiTorso.r) ∧ c6roiTorso.cx = 2 ∧
      ¬ ((c6roiTorso.cx : ℝ) + (c6roiTorso.r + 5) ≤ 4)) ∧
    (c6roiNema.cx = 40 ∧ c6roiNema.cy = -5 ∧ SelectsNoPixel c6roiNema 6 6) := by
  refine ⟨⟨c6roi_r, c6roi_cx, c6roi_cy, ?_, ?_⟩,
    ⟨c6roiTorso_r, ?_, c6roiTorso_center.1, ?_⟩,
    ⟨c6roiNema_cx, c6roiNema_cy, ?_⟩⟩
  · rw [c6roi_cx, c6roi_r]
    norm_num
  · intro x y hx0 hx5 hy0 hy5 hmask
    rw [c6roi_mask_iff] at hmask
    have hxr : (x : ℝ) ≤ 4 := by exact_mod_cast (by omega : x ≤ (4 : ℤ))
    have hyr : (y : ℝ) ≤ 4 := by exact_mod_cast (by omega : y ≤ (4 : ℤ))
    have hx0r : (0 : ℝ) ≤ (x : ℝ) := by exact_mod_cast hx0
    have hy0r : (0 : ℝ) ≤ (y : ℝ) := by exact_mod_cast hy0
    nlinarith
  · rw [c6roiTorso_r]
    norm_num
  · rw [c6roiTorso_center.1, c6roiTorso_r]
    norm_num
  · intro x y hx0 hx6 hy0 hy6 hm
    have hm2 : ((x - c6roiNema.cx : ℤ) : ℝ) ^ 2 +
        ((y - c6roiNema.cy : ℤ) : ℝ) ^ 2 ≤ c6roiNema.r ^ 2 := hm
    rw [c6roiNema_cx, c6roiNema_cy] at hm2
    obtain ⟨hr1, hr10⟩ := c6roiNema_r_bounds
    have hrsq : c6roiNema.r ^ 2 ≤ 100 := by nlinarith
    push_cast at hm2
    have hxr : (x : ℝ) ≤ 5 := by exact_mod_cast (by omega : x ≤ (5 : ℤ))
    have hx0r : (0 : ℝ) ≤ (x : ℝ) := by exact_mod_cast hx0
    nlinarith [sq_nonneg ((y : ℝ) + 5)]

/-- Claim C6 (amended): for the head_neck create_roi_mask, the radius is
always at least 1 and the mask is exactly the integer points within it
of the final center; when both image dimensions are at least
2 * (floor(radius) + 5) the center is clamped into [margin, dim -
margin] with margin = floor(radius) + 5, lies strictly inside the
image, and the mask selects at least the center pixel, while on
smaller images the clamp can place the center outside the image and
the mask can be empty. The nema-style builder also keeps its radius at
least 1, but its column is the unclamped detected column and its row is
clamped only from above to height - pre-clip radius - 1 after a
3-pixel nudge, with no plus-or-minus (radius + 5) margin, so its mask
can also be empty. The torso builder applies no radius floor at all
(the radius is exactly radius_mm / avg or sqrt(area / pi) / avg) and,
outside the signal-mode candidate search, uses the unclamped geometric
image center; its mask is the integer points within that radius of
that center. -/
theorem c6_roi_builder_amended (img : Img) (sx sy : ℚ) (mode : String)
    (rmm amm : ℚ) (fmi ind : Bool) (el : Option (List Char)) (thresh : ℚ)
    (components : (ℕ → ℕ → Bool) → List Region) (searched : ℕ × ℕ)
    (roi roiN roiT : RoiResult)
    (hroi : roi = HeadNeck.create_roi_mask img sx sy mode rmm amm fmi)
    (hroiN : roiN = HeadNeck.create_circular_roi_nema_style img thresh components sx sy amm)
    (hroiT : roiT = Torso.create_roi_mask img sx sy mode rmm amm fmi ind el searched) :
    (1 ≤ roi.r ∧
     (∀ x y : ℤ, roi.mask x y ↔
       ((x - roi.cx : ℤ) : ℝ) ^ 2 + ((y - roi.cy : ℤ) : ℝ) ^ 2 ≤ roi.r ^ 2) ∧
     (2 * (⌊roi.r⌋ + 5) ≤ (img.w : ℤ) → 2 * (⌊roi.r⌋ + 5) ≤ (img.h : ℤ) →
       ⌊roi.r⌋ + 5 ≤ roi.cx ∧ roi.cx ≤ (img.w : ℤ) - (⌊roi.r⌋ + 5) ∧
       ⌊roi.r⌋ + 5 ≤ roi.cy ∧ roi.cy ≤ (img.h : ℤ) - (⌊roi.r⌋ + 5) ∧
       0 ≤ roi.cx ∧ roi.cx < (img.w : ℤ) ∧ 0 ≤ roi.cy ∧ roi.cy < (img.h : ℤ) ∧
       roi.mask roi.cx roi.cy)) ∧
    (1 ≤ roiN.r ∧
     (∀ x y : ℤ, roiN.mask x y ↔
       ((x - roiN.cx : ℤ) : ℝ) ^ 2 + ((y - roiN.cy : ℤ) : ℝ) ^ 2 ≤ roiN.r ^ 2) ∧
     roiN.cx = (detect_circular_object img thresh components).2.1 ∧
     roiN.cy = min ((detect_circular_object img thresh components).1 + 3)
       ((img.h : ℤ) - nema_radius_px0 amm sx sy - 1)) ∧
    ((mode = "signal" → roiT.r = ((rmm / ((sx + sy) / 2) : ℚ) : ℝ)) ∧
     (mode ≠ "signal" →
       roiT.r = Real.sqrt ((amm : ℝ) / Real.pi) / (((sx + sy) / 2 : ℚ) : ℝ)) ∧
     (¬ (fmi = true ∧ mode = "signal") →
       roiT.cx = ((img.w / 2 : ℕ) : ℤ) ∧ roiT.cy = ((img.h / 2 : ℕ) : ℤ)) ∧
     (∀ x y : ℤ, roiT.mask x y ↔
       ((x - roiT.cx : ℤ) : ℝ) ^ 2 + ((y - roiT.cy : ℤ) : ℝ) ^ 2 ≤ roiT.r ^ 2)) := by
  refine ⟨?_, ?_, ?_⟩
  · subst hroi
    have hr1 : 1 ≤ (HeadNeck.create_roi_mask img sx sy mode rmm amm fmi).r := by
      rw [create_roi_mask_r]
      exact roiRadius_ge_one mode rmm amm ((sx + sy) / 2)
    refine ⟨hr1, fun x y => Iff.rfl, ?_⟩
    intro hw hh
    set rv := HeadNeck.create_roi_mask img sx sy mode rmm amm fmi with hrv
    obtain ⟨c0, hcx, hcy⟩ : ∃ c0 : ℕ × ℕ,
        rv.cx = max (⌊rv.r⌋ + 5) (min ((img.w : ℤ) - (⌊rv.r⌋ + 5)) (c0.2 : ℤ)) ∧
        rv.cy = max (⌊rv.r⌋ + 5) (min ((img.h : ℤ) - (⌊rv.r⌋ + 5)) (c0.1 : ℤ)) :=
      ⟨_, rfl, rfl⟩
    have hfl1 : 1 ≤ ⌊rv.r⌋ := by
      rw [Int.le_floor]
      exact_mod_cast hr1
    have hA : ⌊rv.r⌋ + 5 ≤ rv.cx := by
      rw [hcx]
      exact le_max_left _ _
    have hB : rv.cx ≤ (img.w : ℤ) - (⌊rv.r⌋ + 5) := by
      rw [hcx]
      exact max_le (by omega) (min_le_left _ _)
    have hC : ⌊rv.r⌋ + 5 ≤ rv.cy := by
      rw [hcy]
      exact le_max_left _ _
    have hD : rv.cy ≤ (img.h : ℤ) - (⌊rv.r⌋ + 5) := by
      rw [hcy]
      exact max_le (by omega) (min_le_left _ _)
    have hmaskc : rv.mask rv.cx rv.cy := by
      show ((rv.cx - rv.cx : ℤ) : ℝ) ^ 2 + ((rv.cy - rv.cy : ℤ) : ℝ) ^ 2 ≤ rv.r ^ 2
      simp only [sub_self, Int.cast_zero]
      nlinarith [sq_nonneg rv.r]
    exact ⟨hA, hB, hC, hD, by omega, by omega, by omega, by omega, hmaskc⟩
  · subst hroiN
    refine ⟨?_, fun x y => Iff.rfl,
      nema_style_cx img thresh components sx sy amm,
      nema_style_cy img thresh components sx sy amm⟩
    rw [nema_style_r]
    have h1 : (1 : ℤ) ≤ min (nema_radius_px0 amm sx sy)
        (max 1 ((detect_circular_object img thresh components).2.2 - 2)) := by
      refine le_min ?_ (le_max_left _ _)
      unfold nema_radius_px0
      exact le_max_left _ _
    exact_mod_cast h1
  · subst hroiT
    refine ⟨?_, ?_, ?_, fun x y => Iff.rfl⟩
    · intro hm
      rw [torso_create_roi_mask_r, if_pos hm]
    · intro hm
      rw [torso_create_roi_mask_r, if_neg hm]
    · intro hc
      exact torso_create_roi_mask_center img sx sy mode rmm amm fmi ind el searched hc

/-- Twenty-by-twenty all-zero image for the ROI witness. -/
def c6imgBig : Img := { h := 20, w := 20, pix := fun _ _ => 0 }

/-- ROI of the head_neck create_roi_mask on the 20-by-20 image in
signal mode. -/
noncomputable def c6roiBig : RoiResult :=
  HeadNeck.create_roi_mask c6imgBig 1 1 "signal" 3 314 false

/-- ROI of the nema-style builder on the 20-by-20 image. -/
noncomputable def c6roiBigNema : RoiResult :=
  HeadNeck.create_circular_roi_nema_style c6imgBig 0 (fun _ => c6compsN) 1 1 314

/-- ROI of the torso builder on the 20-by-20 image in signal mode. -/
noncomputable def c6roiBigTorso : RoiResult :=
  Torso.create_roi_mask c6imgBig 1 1 "signal" 3 314 false false none (0, 0)

theorem c6roiBig_r : c6roiBig.r = 3 := by
  rw [c6roiBig, create_roi_mask_r, roiRadius_signal_3_1]

theorem c6detectBig_cx :
    (detect_circular_object c6imgBig 0 (fun _ => c6compsN)).2.1 = 40 := by
  have h1 : (detect_circular_object c6imgBig 0 (fun _ => c6compsN)).2.1 =
      pyIntQ 40 := rfl
  rw [h1]
  unfold pyIntQ
  rw [if_neg (by norm_num)]
  norm_num

theorem c6detectBig_cy :
    (detect_circular_object c6imgBig 0 (fun _ => c6compsN)).1 = 0 := by
  have h1 : (detect_circular_object c6imgBig 0 (fun _ => c6compsN)).1 =
      pyIntQ 0 := rfl
  rw [h1]
  unfold pyIntQ
  rw [if_neg (by norm_num)]
  norm_num

/-- Claim C6 (witness): the amended theorem applied to a 20-by-20 image:
the head_neck center stays in [8, 12] in both axes, inside the image,
and its mask contains the center pixel; the nema-style radius is at
least 1 with the detected column 40 and the clamped row 3; the torso
radius is exactly 3 with the unclamped center (10, 10). -/
theorem c6_roi_builder_amended_witness :
    (1 ≤ c6roiBig.r ∧
     8 ≤ c6roiBig.cx ∧ c6roiBig.cx ≤ 12 ∧ 8 ≤ c6roiBig.cy ∧ c6roiBig.cy ≤ 12 ∧
     0 ≤ c6roiBig.cx ∧ c6roiBig.cx < 20 ∧ 0 ≤ c6roiBig.cy ∧ c6roiBig.cy < 20 ∧
     c6roiBig.mask c6roiBig.cx c6roiBig.cy) ∧
    (1 ≤ c6roiBigNema.r ∧ c6roiBigNema.cx = 40 ∧ c6roiBigNema.cy = 3) ∧
    (c6roiBigTorso.r = 3 ∧ c6roiBigTorso.cx = 10 ∧ c6roiBigTorso.cy = 10) := by
  have h := c6_roi_builder_amended c6imgBig 1 1 "signal" 3 314 false false none 0
    (fun _ => c6compsN) (0, 0) c6roiBig c6roiBigNema c6roiBigTorso rfl rfl rfl
  refine ⟨?_, ?_, ?_⟩
  · have hfl : ⌊c6roiBig.r⌋ = 3 := by
      rw [c6roiBig_r]
      norm_num
    have hw20 : (c6imgBig.w : ℤ) = 20 := rfl
    have hh20 : (c6imgBig.h : ℤ) = 20 := rfl
    have h3 := h.1.2.2 (by rw [hfl, hw20]; norm_num) (by rw [hfl, hh20]; norm_num)
    obtain ⟨hA, hB, hC, hD, h0x, hxw, h0y, hyh, hm⟩ := h3
    rw [hfl] at hA hB hC hD
    rw [hw20] at hB hxw
    rw [hh20] at hD hyh
    exact ⟨h.1.1, by omega, by omega, by omega, by omega, by omega, by omega,
      by omega, by omega, hm⟩
  · refine ⟨h.2.1.1, ?_, ?_⟩
    · rw [h.2.1.2.2.1, c6detectBig_cx]
    · rw [h.2.1.2.2.2, c6detectBig_cy, nema_radius_px0_314,
        show (c6imgBig.h : ℤ) = 20 from rfl]
      norm_num [min_def]
  · obtain ⟨hcx, hcy⟩ := h.2.2.2.2.1 (by simp)
    refine ⟨?_, hcx.trans rfl, hcy.trans rfl⟩
    rw [h.2.2.1 rfl]
    norm_num

-- ===================== claim C8 =====================

/-- Claim C8 (confirmed): the phantom locator filters the connected
components of the image binarized at the supplied Otsu threshold down
to those of at least 500 pixels; when none survives it returns the
image geometric center and a radius of a quarter of the smaller
dimension, and otherwise it returns the truncated centroid of a
surviving component of maximal area together with the truncated
sqrt(area / pi) equivalent-circle radius. -/
theorem c8_phantom_locator (img : Img) (thresh : ℚ)
    (components : (ℕ → ℕ → Bool) → List Region) :
    (survivingRegions img thresh components = [] →
      detect_circular_object img thresh components =
        (((img.h / 2 : ℕ) : ℤ), ((img.w / 2 : ℕ) : ℤ),
          ((min img.h img.w / 4 : ℕ) : ℤ))) ∧
    (survivingRegions img thresh components ≠ [] →
      ∃ r ∈ survivingRegions img thresh components,
        (∀ s ∈ survivingRegions img thresh components, s.area ≤ r.area) ∧
        detect_circular_object img thresh components =
          (pyIntQ r.cy, pyIntQ r.cx, ⌊Real.sqrt ((r.area : ℝ) / Real.pi)⌋)) := by
  constructor
  · intro h
    unfold detect_circular_object
    rw [(pyMaxArea_eq_none_iff _).mpr h]
  · intro h
    cases hm : pyMaxArea (survivingRegions img thresh components) with
    | none => exact absurd ((pyMaxArea_eq_none_iff _).mp hm) h
    | some r =>
      obtain ⟨hmem, hmax⟩ := pyMaxArea_mem_and_max _ r hm
      refine ⟨r, hmem, hmax, ?_⟩
      unfold detect_circular_object
      rw [hm]

/-- Nine-by-eight all-zero image for the locator witness. -/
def c8img : Img := { h := 9, w := 8, pix := fun _ _ => 0 }

/-- Concrete component list for the locator witness: a large region of
area 1764 with centroid (21/2, 41/2), a smaller surviving region, and
a speck that the 500-pixel floor removes. -/
def c8comps : List Region :=
  [{ area := 1764, cy := 21 / 2, cx := 41 / 2 },
   { area := 600, cy := 3, cx := 4 },
   { area := 10, cy := 0, cx := 0 }]

theorem c8comps_surviving :
    survivingRegions c8img 0 (fun _ => c8comps) =
      [{ area := 1764, cy := 21 / 2, cx := 41 / 2 },
       { area := 600, cy := 3, cx := 4 }] := rfl

/-- Claim C8 (witness): the locator theorem applied twice: with no
components the fallback center (4, 4) and radius 2 = min(9, 8) / 4 are
returned; with the concrete component list the truncated centroid
(10, 20) of the maximal 1764-pixel region and the truncated radius
floor(sqrt(1764 / pi)) = 23 are returned. -/
theorem c8_phantom_locator_witness :
    detect_circular_object c8img 0 (fun _ => []) = (4, 4, 2) ∧
    detect_circular_object c8img 0 (fun _ => c8comps) = (10, 20, 23) := by
  constructor
  · have h1 := (c8_phantom_locator c8img 0 (fun _ => [])).1 rfl
    rw [h1]
    rfl
  · have h2 := (c8_phantom_locator c8img 0 (fun _ => c8comps)).2
      (by rw [c8comps_surviving]; simp)
    obtain ⟨r, hmem, hmax, heq⟩ := h2
    rw [c8comps_surviving] at hmem hmax
    have hr : r = { area := 1764, cy := 21 / 2, cx := 41 / 2 } := by
      rcases List.mem_cons.mp hmem with h | h
      · exact h
      · rcases List.mem_cons.mp h with h2 | h2
        · have := hmax { area := 1764, cy := 21 / 2, cx := 41 / 2 }
            (List.mem_cons_self _ _)
          rw [h2] at this
          simp at this
        · simp at h2
    rw [hr] at heq
    rw [heq]
    have hcy : pyIntQ (21 / 2 : ℚ) = 10 := by
      unfold pyIntQ
      rw [if_neg (by norm_num)]
      norm_num
    have hcx : pyIntQ (41 / 2 : ℚ) = 20 := by
      unfold pyIntQ
      rw [if_neg (by norm_num)]
      norm_num
    have hrad : ⌊Real.sqrt (((1764 : ℕ) : ℝ) / Real.pi)⌋ = 23 := by
      have hpi1 : Real.pi < 3.15 := Real.pi_lt_d2
      have hpi2 : (3.141592 : ℝ) < Real.pi := Real.pi_gt_d6
      have hpos : (0 : ℝ) < Real.pi := Real.pi_pos
      have hc : ((1764 : ℕ) : ℝ) = 1764 := by norm_num
      rw [hc, Int.floor_eq_iff]
      refine ⟨?_, ?_⟩
      · rw [show ((23 : ℤ) : ℝ) = 23 by norm_num, Real.le_sqrt (by norm_num)]
        · rw [le_div_iff₀ hpos]
          nlinarith
        · positivity
      · rw [show ((23 : ℤ) : ℝ) + 1 = 24 by norm_num]
        rw [Real.sqrt_lt' (by norm_num)]
        rw [div_lt_iff₀ hpos]
        nlinarith
    rw [hcy, hcx, hrad]
